import Mathlib

/-!
Shallow embedding of the OpenReview helper scripts of the
SEA-Workshop/sea-workshop.github.io repository
(src/openreview_scripts/make_decision.py,
src/openreview_scripts/extract_accepted_papers.py,
src/openreview_scripts/extract_author_ids.py)
and proofs about the decision/score aggregation logic.

Python strings are modelled as Lean strings over their character lists;
Python numbers as Int (for ints) and the rationals (for floats, exact);
Python dict content as association lists; Python None explicitly.
-/

/-! ## String utilities (Python str.lower, str.strip, substring and startswith tests) -/

/-- Python whitespace characters for ASCII input, as used by str.strip and
by the regex class backslash-s in the scripts (space, tab, newline, carriage
return, vertical tab, form feed). -/
def pyIsSpace (c : Char) : Bool :=
  c == ' ' || c == '\t' || c == '\n' || c == '\r' || c == '\x0b' || c == '\x0c'

/-- Python str.lower for the ASCII strings the scripts handle. -/
def pyLower (s : String) : String :=
  ⟨s.data.map Char.toLower⟩

/-- Python str.strip: drop leading and trailing whitespace. -/
def pyStrip (s : String) : String :=
  ⟨((s.data.dropWhile pyIsSpace).reverse.dropWhile pyIsSpace).reverse⟩

/-- Does the second character list start with the first?  Models the Python
str.startswith test on the underlying characters. -/
def startsWithChars : List Char → List Char → Bool
  | [], _ => true
  | _ :: _, [] => false
  | a :: as, b :: bs => a == b && startsWithChars as bs

/-- Does the pattern occur as a contiguous substring of the second list?
Models the Python `in` test on strings. -/
def hasSubstr (pat : List Char) : List Char → Bool
  | [] => pat.isEmpty
  | c :: rest => startsWithChars pat (c :: rest) || hasSubstr pat rest

/-! ## Python values -/

/-- Loosely typed Python values as they occur in note content: None, ints,
floats (modelled exactly as rationals), strings, and dictionaries
(association lists, first binding of a key wins as in a Python dict). -/
inductive PyVal where
  | pnone : PyVal
  | pint : Int → PyVal
  | pfloat : ℚ → PyVal
  | pstr : String → PyVal
  | pdict : List (String × PyVal) → PyVal

/-- Python dict.get on the association-list model: the first binding wins. -/
def dictGet (entries : List (String × PyVal)) (k : String) : Option PyVal :=
  (entries.find? (fun e => e.1 == k)).map (fun e => e.2)

/-- Python truthiness of a value. -/
def pyTruthy : PyVal → Bool
  | .pnone => false
  | .pint n => n != 0
  | .pfloat q => q != 0
  | .pstr s => !s.isEmpty
  | .pdict entries => !entries.isEmpty

/-- Python str() of a value.  Exact for strings, None and ints, which are the
only cases the claims exercise; the float and dict renderings are stand-ins
(neither ever begins with a digit prefix the scripts would parse, which is
all the code depends on in the unreached cases). -/
def pyStr : PyVal → String
  | .pstr s => s
  | .pnone => "None"
  | .pint n => toString n
  | .pfloat q => toString q
  | .pdict _ => "\x7b\x7d"

/-- An OpenReview note as the scripts consume it: the invitation labels, the
creation timestamp (cdate, possibly missing), the content dictionary
(possibly missing), the forum and id, and the paper number field. -/
structure Note where
  invitations : List String
  cdate : Option Int
  content : Option (List (String × PyVal))
  forum : Option String
  id : String
  number : Option Int

/-! ## parse_numeric_score (make_decision.py lines 57 to 74) -/

/-- Decimal value of a digit list, most significant first. -/
def digitsToNat (ds : List Char) : ℕ :=
  ds.foldl (fun a c => 10 * a + (c.toNat - 48)) 0

/-- The leading-number regex of parse_numeric_score: re.match of
backslash-s star, then one or more digits, then an optional dot with one or
more digits; returns the matched group as an exact rational value (the
decimal ds.fs read as the integer part plus the fraction digits over the
matching power of ten). -/
def parseLeadingNumber (s : List Char) : Option ℚ :=
  let t := s.dropWhile pyIsSpace
  let ds := t.takeWhile Char.isDigit
  if ds.isEmpty then none
  else
    match t.drop ds.length with
    | '.' :: r2 =>
      let fs := r2.takeWhile Char.isDigit
      if fs.isEmpty then some (digitsToNat ds : ℚ)
      else some (mkRat (digitsToNat ds * 10 ^ fs.length + digitsToNat fs) (10 ^ fs.length))
    | _ => some (digitsToNat ds : ℚ)

/-- make_decision.py parse_numeric_score: None stays None, ints and floats
are returned as floats, strings are matched against the leading-number
regex; anything else is str()-converted first, and since the str() of a
dict never starts with an optional-whitespace digit prefix, it parses to
None. -/
def parse_numeric_score : PyVal → Option ℚ
  | .pnone => none
  | .pint n => some (n : ℚ)
  | .pfloat q => some q
  | .pstr s => parseLeadingNumber s.data
  | .pdict _ => none

/-! ## average_review_score (make_decision.py lines 91 to 130) -/

/-- The candidate score field names tried in priority order. -/
def score_fields : List String :=
  ["rating", "overall_assessment", "overall recommendation",
   "overall_recommendation", "recommendation", "overall", "overall_score"]

/-- Key normalisation for the case-insensitive fallback:
k.replace(" ", "").lower(). -/
def normKey (k : String) : String :=
  ⟨(k.data.filter (fun c => c != ' ')).map Char.toLower⟩

/-- The candidates list built per key in average_review_score: the exact key
if present, else the first content entry whose normalised key matches the
normalised candidate key; at most one element. -/
def candidatesFor (content : List (String × PyVal)) (key : String) : List PyVal :=
  match dictGet content key with
  | some v => [v]
  | none =>
    match content.find? (fun e => normKey e.1 == normKey key) with
    | some e => [e.2]
    | none => []

/-- The unwrap applied to a candidate value before parsing:
val if not a dict, else val.get("value") with Python None for a missing
value key. -/
def unwrapVal : PyVal → PyVal
  | .pdict entries => (dictGet entries "value").getD .pnone
  | v => v

/-- The inner key loop of average_review_score for one review, threading the
accumulated scores list of ALL reviews processed so far.  Faithful to the
source: after the candidates of a key are examined, the loop breaks as soon
as the accumulated scores list is non-empty (the appended entries are never
None, so the source condition scores and scores[-1] is not None reduces to
non-emptiness), even when the non-emptiness stems from an earlier review. -/
def reviewKeyLoop (content : List (String × PyVal)) : List String → List ℚ → List ℚ
  | [], scores => scores
  | key :: rest, scores =>
    let scores2 :=
      match candidatesFor content key with
      | [] => scores
      | val :: _ =>
        match parse_numeric_score (unwrapVal val) with
        | some sc => scores ++ [sc]
        | none => scores
    if scores2.isEmpty then reviewKeyLoop content rest scores2 else scores2

/-- The mean of a score list, None when it is empty: the final
sum(scores) / len(scores) step shared by the code and the spec model. -/
def meanQ (scores : List ℚ) : Option ℚ :=
  if scores.isEmpty then none
  else some ((scores.foldl (· + ·) 0) / (scores.length : ℚ))

/-- The scores list accumulated by the review loop of average_review_score
over the review notes (using the content dict of each, an absent content
read as empty). -/
def accumulatedScores (review_notes : List Note) : List ℚ :=
  review_notes.foldl
    (fun acc r => reviewKeyLoop (r.content.getD []) score_fields acc) []

/-- make_decision.py average_review_score: fold the key loop over the review
notes, then return the mean of the accumulated scores, or None when no score
was accumulated. -/
def average_review_score (review_notes : List Note) : Option ℚ :=
  meanQ (accumulatedScores review_notes)

/-- Modelled from the spec: the per-review extract_score of section 4.1,
trying the candidate fields of one review in priority order, independently
of any other review, and keeping the first successfully parsed one.  Used
as the comparison point for the aggregation claims. -/
def extract_score (content : List (String × PyVal)) : Option ℚ :=
  (score_fields.filterMap
    (fun key => (candidatesFor content key).head?.bind
      (fun val => parse_numeric_score (unwrapVal val)))).head?

/-- Modelled from the spec: average_score of section 4.1, the arithmetic
mean of exactly the per-review extract_score results, ignoring reviews with
no parseable score, None when there is none. -/
def spec_average_score (review_notes : List Note) : Option ℚ :=
  meanQ (review_notes.filterMap (fun r => extract_score (r.content.getD [])))

/-! ## get_reviews_for_forum (make_decision.py lines 77 to 88) -/

/-- The review filter of get_reviews_for_forum: the lower-cased first
invitation label (empty when there is none) must contain "review" and
contain "official" or "review". -/
def isReviewNote (n : Note) : Bool :=
  let inv := pyLower (n.invitations.headD "")
  hasSubstr "review".data inv.data &&
    (hasSubstr "official".data inv.data || hasSubstr "review".data inv.data)

/-- make_decision.py get_reviews_for_forum, with the fetched thread replies
passed in place of the network client. -/
def get_reviews_for_forum (replies : List Note) : List Note :=
  replies.filter isReviewNote

/-! ## get_decision_for_forum (make_decision.py lines 133 to 160) -/

/-- The meta-review filter of get_decision_for_forum: invitations non-empty
and the first label contains "Meta_Review" or "Meta-Review", in exactly that
casing. -/
def isMetaNote (n : Note) : Bool :=
  !n.invitations.isEmpty &&
    (hasSubstr "Meta_Review".data (n.invitations.headD "").data ||
     hasSubstr "Meta-Review".data (n.invitations.headD "").data)

/-- The sort key of the meta-review selection: x.cdate or 0. -/
def cdateKey (n : Note) : Int :=
  n.cdate.getD 0

/-- The candidate decision field names tried in priority order. -/
def decisionKeys : List String :=
  ["recommendation", "final_recommendation", "final decision", "decision"]

/-- The unwrap applied to a decision value: val if not a dict, else
val.get("value", "") with empty-string default. -/
def unwrapDecisionVal : PyVal → PyVal
  | .pdict entries => (dictGet entries "value").getD (.pstr "")
  | v => v

/-- The key loop of get_decision_for_forum over the content of the selected
meta review: at the first key present in the content, unwrap, and return the
stripped str() of the value when it is truthy, else None; keys after a
present key are never consulted. -/
def decisionKeyLoop (content : List (String × PyVal)) : List String → Option String
  | [] => none
  | key :: rest =>
    match dictGet content key with
    | some val =>
      let v2 := unwrapDecisionVal val
      if pyTruthy v2 then some (pyStrip (pyStr v2)) else none
    | none => decisionKeyLoop content rest

/-- Decision extraction from the content dict of one meta review. -/
def extractDecisionFromContent (content : List (String × PyVal)) : Option String :=
  decisionKeyLoop content decisionKeys

/-- make_decision.py get_decision_for_forum, with the fetched thread replies
passed in place of the network client: filter the meta reviews, pick the
head of the stable descending sort by cdate (Python sorted with reverse=True
keeps ties in input order), and extract its decision text. -/
def get_decision_for_forum (replies : List Note) : Option String :=
  let meta_candidates := replies.filter isMetaNote
  match (List.insertionSort (fun a b => cdateKey b ≤ cdateKey a) meta_candidates).head? with
  | some meta => extractDecisionFromContent (meta.content.getD [])
  | none => none

/-- The first record of a list attaining the maximum cdate key (ties broken
by input order), the selection the spec describes for select_decision. -/
def firstMaxByCdate : List Note → Option Note
  | [] => none
  | x :: xs =>
    match firstMaxByCdate xs with
    | none => some x
    | some m => if cdateKey m > cdateKey x then some m else some x

/-! ## classify_low_score_accept (make_decision.py lines 232 to 236) -/

/-- The low-score-accept classification inlined in main: the decision string
lower-cased starts with "accept", the average score exists, and it is below
the fixed threshold 4.0. -/
def classify_low_score_accept (decision_str : String) (avg_score : Option ℚ) : Bool :=
  let accepted := startsWithChars "accept".data (pyLower decision_str).data
  accepted &&
    (match avg_score with
     | some s => decide (s < 4)
     | none => false)

/-! ## get_paper_number and the aggregation loop of main (make_decision.py lines 163 to 249) -/

/-- Python int() applied to a string: optional surrounding whitespace, an
optional sign, then one or more digits (digit-group underscores are not
modelled; no claim exercises them); None models the ValueError the caller
catches. -/
def parsePyInt (s : String) : Option Int :=
  let t := (s.data.dropWhile pyIsSpace).reverse.dropWhile pyIsSpace
  let core := t.reverse
  let signed :=
    match core with
    | '+' :: rest => some (1, rest)
    | '-' :: rest => some (-1, rest)
    | rest => some (1, rest)
  match signed with
  | some (sign, ds) =>
    if ds.isEmpty then none
    else if ds.all Char.isDigit then some (sign * (digitsToNat ds : Int))
    else none
  | none => none

/-- Python int() applied to a value, None modelling the exception the caller
catches (int of a dict raises TypeError; int of a float truncates toward
zero, which is num divided by den with T-division on the exact rational). -/
def pyIntOf : PyVal → Option Int
  | .pint n => some n
  | .pfloat q => some (q.num.tdiv (q.den : Int))
  | .pstr s => parsePyInt s
  | .pnone => none
  | .pdict _ => none

/-- The content-key fallback loop of get_paper_number: for each key, read the
content value, unwrap a dict through its value key (None default), and when
the result is not None try int() on it, passing on failure. -/
def paperNumberKeyLoop (content : List (String × PyVal)) : List String → Option Int
  | [] => none
  | k :: rest =>
    let v :=
      match dictGet content k with
      | some (.pdict entries) => dictGet entries "value"
      | other => other
    match v with
    | none => paperNumberKeyLoop content rest
    | some .pnone => paperNumberKeyLoop content rest
    | some val =>
      match pyIntOf val with
      | some i => some i
      | none => paperNumberKeyLoop content rest

/-- make_decision.py get_paper_number: the number attribute when present,
else the first content key among number, paper_number, submission_number
that converts with int(). -/
def get_paper_number (note : Note) : Option Int :=
  match note.number with
  | some num => some num
  | none => paperNumberKeyLoop (note.content.getD [])
    ["number", "paper_number", "submission_number"]

/-- One decision row of the output CSV. -/
structure Row where
  paper_number : Int
  decision : String
  comment : String

/-- The forum identifier used for one submission in main:
sub.forum or sub.id, where a missing or empty (falsy) forum falls back to
the id. -/
def forumOf (sub : Note) : String :=
  match sub.forum with
  | some f => if f.isEmpty then sub.id else f
  | none => sub.id

/-- The paper number computed for one submission in main: get_paper_number,
with the fallback to the number attribute or -1. -/
def paperNoOf (sub : Note) : Int :=
  match get_paper_number sub with
  | some p => p
  | none =>
    match sub.number with
    | some n => n
    | none => -1

/-- The normalised decision string computed for one submission in main. -/
def decisionStrOf (fetchReplies : String → List Note) (sub : Note) : String :=
  pyStrip ((get_decision_for_forum (fetchReplies (forumOf sub))).getD "")

/-- The low-score-accept flag test of main for one submission. -/
def flaggedLowScore (fetchReplies : String → List Note) (sub : Note) : Bool :=
  classify_low_score_accept (decisionStrOf fetchReplies sub)
    (average_review_score (get_reviews_for_forum (fetchReplies (forumOf sub))))

/-- The decision row appended for one submission in main. -/
def aggRow (fetchReplies : String → List Note) (sub : Note) : Row :=
  { paper_number := paperNoOf sub
    decision := decisionStrOf fetchReplies sub
    comment := "" }

/-- The two outputs of the aggregation run of main. -/
structure AggOutput where
  rows : List Row
  flagged : List Int

/-- The aggregation loop of main over the fetched submissions, with the
per-forum reply fetch passed in place of the network client: one row per
submission (sorted by paper number for the CSV, pandas sort_values), and the
flagged list of paper numbers of low-score accepts (set-deduplicated then
sorted, the filter on None entries being vacuous since every computed paper
number is an int). -/
def runAggregation (fetchReplies : String → List Note) (submissions : List Note) :
    AggOutput :=
  let rows := submissions.map (aggRow fetchReplies)
  let flagged := (submissions.filter (flaggedLowScore fetchReplies)).map paperNoOf
  { rows := List.insertionSort (fun a b => a.paper_number ≤ b.paper_number) rows
    flagged := List.insertionSort (fun a b => a ≤ b) flagged.dedup }

/-! ## Presentation-type classifier (extract_accepted_papers.py lines 106 to 114) -/

/-- The presentation-type classification inlined in the main of
extract_accepted_papers.py: lower-case the venue field, return Oral when it
contains "oral", else Poster when it contains "poster", else the empty
string. -/
def presentation_type (venue_field : String) : String :=
  let venue_lower := pyLower venue_field
  if hasSubstr "oral".data venue_lower.data then "Oral"
  else if hasSubstr "poster".data venue_lower.data then "Poster"
  else ""

/-! ## resolve_to_profile_ids (extract_author_ids.py lines 13 to 29) -/

/-- The tilde-profile regex test re.match of caret tilde dot-plus
backslash-d-plus dollar: after discounting one trailing newline (the dollar
anchor of re also matches just before it), the string starts with a tilde,
ends with a digit, and has at least one character between them, none of the
intermediate characters being a newline (the dot class excludes newlines,
and a newline cannot sit in the digit run either). -/
def tildeMatch (s : String) : Bool :=
  let core :=
    match s.data.getLast? with
    | some c => if c == '\n' then s.data.dropLast else s.data
    | none => s.data
  match core with
  | '~' :: rest =>
    !rest.dropLast.isEmpty &&
      (match rest.getLast? with
       | some c => c.isDigit
       | none => false) &&
      rest.dropLast.all (fun c => c != '\n')
  | _ => false

/-- extract_author_ids.py resolve_to_profile_ids, with the batch profile
lookup passed as a pure per-member function (None modelling a falsy profile
or missing profile id): the members matching the tilde pattern form a set,
the remaining members are resolved through the lookup, and the union is
returned. -/
def resolve_to_profile_ids (lookup : String → Option String)
    (members : List String) : Finset String :=
  let tilde_ids : Finset String := (members.filter (fun m => tildeMatch m)).toFinset
  let unknowns : List String := members.filter (fun m => !(decide (m ∈ tilde_ids)))
  tilde_ids ∪ (unknowns.filterMap lookup).toFinset

/-! ## Concrete records used in the example theorems -/

/-- A reply note with the given invitations, cdate and content. -/
def mkReply (invs : List String) (cd : Option Int)
    (ct : Option (List (String × PyVal))) : Note :=
  { invitations := invs, cdate := cd, content := ct,
    forum := none, id := "", number := none }

/-- A review whose rating field parses to 6. -/
def reviewRatingSix : Note :=
  mkReply ["NeurIPS.cc/2025/Workshop/SEA/-/Official_Review"] (some 10)
    (some [("rating", .pstr "6: Weak Accept")])

/-- A review with no rating field, whose recommendation field parses to 2. -/
def reviewRecTwo : Note :=
  mkReply ["NeurIPS.cc/2025/Workshop/SEA/-/Official_Review"] (some 11)
    (some [("recommendation", .pstr "2: Reject")])

/-- A meta review created at 100 recommending rejection. -/
def metaAt100 : Note :=
  mkReply ["NeurIPS.cc/2025/Workshop/SEA/-/Meta_Review"] (some 100)
    (some [("recommendation", .pstr "Reject")])

/-- A meta review created at 200 recommending acceptance. -/
def metaAt200 : Note :=
  mkReply ["NeurIPS.cc/2025/Workshop/SEA/-/Meta_Review"] (some 200)
    (some [("recommendation", .pstr "Accept (Poster)")])

/-- A reply whose invitation label contains meta_review only in lower case. -/
def metaLowerCase : Note :=
  mkReply ["neurips.cc/2025/workshop/sea/-/meta_review"] (some 50)
    (some [("recommendation", .pstr "Accept")])

/-- A meta review carrying a recommendation that parses to 7. -/
def metaWithScore : Note :=
  mkReply ["NeurIPS.cc/2025/Workshop/SEA/-/Meta_Review"] (some 300)
    (some [("recommendation", .pstr "7: Accept")])

/-- A submission with no number anywhere, forum fa. -/
def subNoNumberA : Note :=
  { invitations := [], cdate := none, content := none,
    forum := some "fa", id := "a", number := none }

/-- A second submission with no number anywhere, forum fb. -/
def subNoNumberB : Note :=
  { invitations := [], cdate := none, content := none,
    forum := some "fb", id := "b", number := none }

/-- A submission numbered 1. -/
def subNumberOne : Note :=
  { invitations := [], cdate := none, content := none,
    forum := some "f1", id := "s1", number := some 1 }

/-- An empty reply fetch, used where the thread contents do not matter. -/
def emptyFetch : String → List Note := fun _ => []

/-- The example batch lookup resolving the example mail address. -/
def exampleLookup : String → Option String :=
  fun m => if m = "jane@example.com" then some "~Jane_Doe2" else none

/-- Modelled from the spec: select_decision extracting the decision text
with the same priority-field-name strategy as scores (exact key match
first, then case-and-whitespace-insensitive key match), unwrapping and
stripping; the spec comparison point for the decision-extraction claim. -/
def spec_select_decision_text (content : List (String × PyVal)) : Option String :=
  match (decisionKeys.filterMap (fun key => (candidatesFor content key).head?)).head? with
  | some val =>
    let v2 := unwrapDecisionVal val
    if pyTruthy v2 then some (pyStrip (pyStr v2)) else none
  | none => none

/-- Does the string carry a digit right after its leading whitespace, the
condition under which the leading-number regex matches at all. -/
def hasNumericPrefixAfterSpaces (s : String) : Bool :=
  match (s.data.dropWhile pyIsSpace).head? with
  | some c => c.isDigit
  | none => false

/-- A second meta review also created at 200, used to exhibit the tie break
by input order. -/
def metaAt200Tie : Note :=
  mkReply ["NeurIPS.cc/2025/Workshop/SEA/-/Meta_Review"] (some 200)
    (some [("recommendation", .pstr "Reject (tie loser)")])

/-! ## Helper lemmas about the string tests -/

/-- Characterisation of the startswith test. -/
theorem startsWithChars_iff : ∀ (p s : List Char),
    startsWithChars p s = true ↔ ∃ t, s = p ++ t
  | [], s => by simp [startsWithChars]
  | a :: as, [] => by simp [startsWithChars]
  | a :: as, b :: bs => by
    simp only [startsWithChars, Bool.and_eq_true, beq_iff_eq,
      startsWithChars_iff as bs, List.cons_append, List.cons.injEq]
    constructor
    · rintro ⟨rfl, t, rfl⟩
      exact ⟨t, rfl, rfl⟩
    · rintro ⟨t, rfl, rfl⟩
      exact ⟨rfl, t, rfl⟩

/-- Characterisation of the substring test. -/
theorem hasSubstr_iff : ∀ (p s : List Char),
    hasSubstr p s = true ↔ ∃ pre post, s = pre ++ (p ++ post)
  | p, [] => by
    simp only [hasSubstr, List.isEmpty_iff]
    constructor
    · rintro rfl
      exact ⟨[], [], rfl⟩
    · rintro ⟨pre, post, h⟩
      rcases List.append_eq_nil.mp h.symm with ⟨rfl, h2⟩
      rcases List.append_eq_nil.mp h2 with ⟨rfl, -⟩
      rfl
  | p, c :: cs => by
    simp only [hasSubstr, Bool.or_eq_true, startsWithChars_iff, hasSubstr_iff p cs]
    constructor
    · rintro (⟨t, h⟩ | ⟨pre, post, h⟩)
      · exact ⟨[], t, by simpa using h⟩
      · exact ⟨c :: pre, post, by simp [h]⟩
    · rintro ⟨pre, post, h⟩
      cases pre with
      | nil => exact Or.inl ⟨post, by simpa using h⟩
      | cons x xs =>
        rw [List.cons_append, List.cons.injEq] at h
        exact Or.inr ⟨xs, post, h.2⟩

/-- A substring match survives a character map. -/
theorem hasSubstr_map (f : Char → Char) {p s : List Char}
    (h : hasSubstr p s = true) : hasSubstr (p.map f) (s.map f) = true := by
  rw [hasSubstr_iff] at h ⊢
  obtain ⟨pre, post, rfl⟩ := h
  exact ⟨pre.map f, post.map f, by simp⟩

/-- Transitivity of the substring test. -/
theorem hasSubstr_trans {p q s : List Char}
    (h1 : hasSubstr p q = true) (h2 : hasSubstr q s = true) :
    hasSubstr p s = true := by
  rw [hasSubstr_iff] at h1 h2 ⊢
  obtain ⟨a, b, rfl⟩ := h1
  obtain ⟨c, d, rfl⟩ := h2
  exact ⟨c ++ a, b ++ d, by simp⟩

/-- A label containing Meta_Review or Meta-Review contains review once
lower-cased. -/
theorem meta_label_contains_review {s : String}
    (h : hasSubstr "Meta_Review".data s.data = true ∨
         hasSubstr "Meta-Review".data s.data = true) :
    hasSubstr "review".data (pyLower s).data = true := by
  have hd : (pyLower s).data = s.data.map Char.toLower := rfl
  rw [hd]
  rcases h with h | h
  · exact hasSubstr_trans (by decide) (hasSubstr_map Char.toLower h)
  · exact hasSubstr_trans (by decide) (hasSubstr_map Char.toLower h)

/-! ## Helper lemmas about the leading-number parse -/

/-- Without a digit after the leading whitespace the regex fails. -/
theorem parseLeadingNumber_eq_none {s : String}
    (h : hasNumericPrefixAfterSpaces s = false) :
    parseLeadingNumber s.data = none := by
  unfold parseLeadingNumber
  unfold hasNumericPrefixAfterSpaces at h
  cases ht : s.data.dropWhile pyIsSpace with
  | nil => simp [ht]
  | cons c cs =>
    rw [ht] at h
    simp only [List.head?] at h
    simp [ht, List.takeWhile_cons, h]

/-- With a digit after the leading whitespace the regex matches and some
value is returned. -/
theorem parseLeadingNumber_eq_some {s : String}
    (h : hasNumericPrefixAfterSpaces s = true) :
    ∃ q, parseLeadingNumber s.data = some q := by
  unfold parseLeadingNumber
  unfold hasNumericPrefixAfterSpaces at h
  cases ht : s.data.dropWhile pyIsSpace with
  | nil => rw [ht] at h; simp at h
  | cons c cs =>
    rw [ht] at h
    simp only [List.head?] at h
    simp only [List.takeWhile_cons_of_pos h, List.isEmpty_cons, Bool.false_eq_true,
      if_false]
    split
    · split
      · exact ⟨_, rfl⟩
      · exact ⟨_, rfl⟩
    · exact ⟨_, rfl⟩

/-! ## Claim C8 -/

/-- C8: parse_numeric_score returns the leading numeric token (integer or
decimal) matched at the start of the string as a float, returns the value
itself for an already-numeric input, and returns None when no numeric
prefix exists; in particular "6: Weak Accept" yields 6.0, "Borderline"
yields None, the number 7 yields 7.0, and "4.5: Something" yields 4.5. -/
theorem C8_parse_numeric_score :
    parse_numeric_score (.pstr "6: Weak Accept") = some 6 ∧
    parse_numeric_score (.pstr "Borderline") = none ∧
    parse_numeric_score (.pint 7) = some 7 ∧
    parse_numeric_score (.pstr "4.5: Something") = some (9 / 2) ∧
    parse_numeric_score (.pstr "   7") = some 7 ∧
    (∀ n : Int, parse_numeric_score (.pint n) = some (n : ℚ)) ∧
    (∀ q : ℚ, parse_numeric_score (.pfloat q) = some q) ∧
    (∀ s : String, hasNumericPrefixAfterSpaces s = false →
      parse_numeric_score (.pstr s) = none) ∧
    (∀ s : String, hasNumericPrefixAfterSpaces s = true →
      ∃ q, parse_numeric_score (.pstr s) = some q) := by
  refine ⟨by decide, by decide, by decide, ?_, by decide,
    fun n => rfl, fun q => rfl, fun s h => ?_, fun s h => ?_⟩
  · have h45 : parse_numeric_score (.pstr "4.5: Something") = some (mkRat 45 10) := rfl
    rw [h45, Rat.mkRat_eq_divInt, Rat.divInt_eq_div]
    norm_num
  · exact parseLeadingNumber_eq_none h
  · exact parseLeadingNumber_eq_some h

/-- Witness for C8 at a concrete input with the hypotheses discharged. -/
theorem C8_parse_numeric_score_witness :
    parse_numeric_score (.pstr "Borderline reject") = none :=
  C8_parse_numeric_score.2.2.2.2.2.2.2.1 "Borderline reject" (by decide)

/-! ## Claim C2 -/

/-- C2: classify_low_score_accept is true exactly when the decision,
compared case-insensitively, starts with the literal "accept", the average
score is present, and the score is strictly below 4.0; concretely
(Accept, 3.9) is true, (Accept, 4.0) is false and (Reject, 2.0) is
false. -/
theorem C2_classify_low_score_accept :
    (∀ (d : String) (s : Option ℚ),
      classify_low_score_accept d s = true ↔
        ((∃ t, (pyLower d).data = "accept".data ++ t) ∧
         ∃ q, s = some q ∧ q < 4)) ∧
    classify_low_score_accept "Accept" (some (39 / 10)) = true ∧
    classify_low_score_accept "Accept" (some 4) = false ∧
    classify_low_score_accept "Reject" (some 2) = false := by
  have hiff : ∀ (d : String) (s : Option ℚ),
      classify_low_score_accept d s = true ↔
        ((∃ t, (pyLower d).data = "accept".data ++ t) ∧
         ∃ q, s = some q ∧ q < 4) := by
    intro d s
    unfold classify_low_score_accept
    rw [Bool.and_eq_true, startsWithChars_iff]
    cases s with
    | none => simp
    | some q => simp [decide_eq_true_eq]
  refine ⟨hiff, ?_, ?_, ?_⟩
  · exact (hiff _ _).mpr ⟨⟨[], by decide⟩, 39 / 10, rfl, by norm_num⟩
  · rw [← Bool.not_eq_true]
    intro h
    obtain ⟨-, q, hq, hlt⟩ := (hiff _ _).mp h
    rw [Option.some.injEq] at hq
    rw [← hq] at hlt
    exact absurd hlt (by norm_num)
  · rw [← Bool.not_eq_true]
    intro h
    obtain ⟨⟨t, ht⟩, -⟩ := (hiff _ _).mp h
    have hr : (pyLower "Reject").data = ['r', 'e', 'j', 'e', 'c', 't'] := by decide
    rw [hr] at ht
    simp at ht

/-- Witness for C2 at a concrete input with the iff discharged. -/
theorem C2_classify_low_score_accept_witness :
    classify_low_score_accept "Accepted (oral)" (some 3) = true :=
  (C2_classify_low_score_accept.1 "Accepted (oral)" (some 3)).mpr
    ⟨⟨"ed (oral)".data, by decide⟩, 3, rfl, by norm_num⟩

/-! ## Claim C9 -/

/-- C9: the presentation-type classifier is a total function into Oral,
Poster or the empty string: Oral when the tag case-insensitively contains
"oral" (checked before "poster"), else Poster when it contains "poster",
else empty; with the three concrete examples. -/
theorem C9_presentation_type :
    (∀ v : String, presentation_type v = "Oral" ∨ presentation_type v = "Poster" ∨
      presentation_type v = "") ∧
    (∀ v : String, hasSubstr "oral".data (pyLower v).data = true →
      presentation_type v = "Oral") ∧
    (∀ v : String, hasSubstr "oral".data (pyLower v).data = false →
      hasSubstr "poster".data (pyLower v).data = true →
      presentation_type v = "Poster") ∧
    (∀ v : String, hasSubstr "oral".data (pyLower v).data = false →
      hasSubstr "poster".data (pyLower v).data = false →
      presentation_type v = "") ∧
    presentation_type "SEA @ NeurIPS 2025 Oral" = "Oral" ∧
    presentation_type "SEA @ NeurIPS 2025 Poster" = "Poster" ∧
    presentation_type "Workshop Accept" = "" := by
  refine ⟨fun v => ?_, fun v h => ?_, fun v h1 h2 => ?_, fun v h1 h2 => ?_,
    by decide, by decide, by decide⟩
  · unfold presentation_type
    by_cases h1 : hasSubstr "oral".data (pyLower v).data = true
    · simp [h1]
    · by_cases h2 : hasSubstr "poster".data (pyLower v).data = true
      · simp [h1, h2]
      · simp [h1, h2]
  · unfold presentation_type
    simp [h]
  · unfold presentation_type
    simp [h1, h2]
  · unfold presentation_type
    simp [h1, h2]

/-- Witness for C9 at a concrete input with the hypotheses discharged. -/
theorem C9_presentation_type_witness :
    presentation_type "An ORAL talk" = "Oral" :=
  C9_presentation_type.2.1 "An ORAL talk" (by decide)

/-! ## Claim C6 -/

/-- A note passing the meta-review filter also passes the review filter,
since the lower-cased label still contains review. -/
theorem meta_implies_review {n : Note} (h : isMetaNote n = true) :
    isReviewNote n = true := by
  unfold isMetaNote at h
  rw [Bool.and_eq_true, Bool.or_eq_true] at h
  have hr : hasSubstr "review".data (pyLower (n.invitations.headD "")).data = true :=
    meta_label_contains_review h.2
  show (hasSubstr "review".data (pyLower (n.invitations.headD "")).data &&
    (hasSubstr "official".data (pyLower (n.invitations.headD "")).data ||
     hasSubstr "review".data (pyLower (n.invitations.headD "")).data)) = true
  rw [Bool.and_eq_true, Bool.or_eq_true]
  exact ⟨hr, Or.inr hr⟩

/-- C6: every reply passing the meta-review test is also kept by
get_reviews_for_forum, and a meta review carrying a recommendation field
with a numeric prefix contributes that value to the average review score. -/
theorem C6_meta_counted_as_review :
    (∀ n : Note, isMetaNote n = true → isReviewNote n = true) ∧
    (∀ (replies : List Note) (n : Note), n ∈ replies → isMetaNote n = true →
      n ∈ get_reviews_for_forum replies) ∧
    get_reviews_for_forum [metaWithScore] = [metaWithScore] ∧
    average_review_score [metaWithScore] = some 7 := by
  refine ⟨fun n h => meta_implies_review h, fun replies n hmem h => ?_, rfl, ?_⟩
  · unfold get_reviews_for_forum
    exact List.mem_filter.mpr ⟨hmem, meta_implies_review h⟩
  · have hfold : accumulatedScores [metaWithScore] = [(7 : ℚ)] := by decide
    unfold average_review_score
    rw [hfold]
    simp [meanQ]

/-- Witness for C6 at a concrete input with the hypotheses discharged. -/
theorem C6_meta_counted_as_review_witness :
    metaWithScore ∈ get_reviews_for_forum [metaWithScore] :=
  C6_meta_counted_as_review.2.1 [metaWithScore] metaWithScore
    (List.mem_singleton.mpr rfl) (by decide)

/-! ## Claim C4 -/

/-- C4 counterexample: a reply whose invitation label contains meta_review
in lower case is NOT classified as a meta decision, although the claimed
case-insensitive substring test matches it. -/
theorem C4_counterexample :
    isMetaNote metaLowerCase = false ∧
    hasSubstr "meta_review".data
      (pyLower (metaLowerCase.invitations.headD "")).data = true ∧
    hasSubstr "meta-review".data
      (pyLower "Conf/-/Meta-Review").data = true ∧
    isMetaNote (mkReply ["Conf/-/META-REVIEW"] none none) = false := by
  refine ⟨by decide, by decide, by decide, by decide⟩

/-- C4 amended: classification as a meta decision is a case-sensitive
substring test on the first invitation label, matching exactly Meta_Review
or Meta-Review in that casing (and requiring a non-empty invitation
list). -/
theorem C4_meta_case_sensitive :
    ∀ n : Note, isMetaNote n = true ↔
      ∃ first rest, n.invitations = first :: rest ∧
        ((∃ pre post, first.data = pre ++ ("Meta_Review".data ++ post)) ∨
         (∃ pre post, first.data = pre ++ ("Meta-Review".data ++ post))) := by
  intro n
  unfold isMetaNote
  rw [Bool.and_eq_true, Bool.or_eq_true, Bool.not_eq_true']
  cases hinv : n.invitations with
  | nil => simp
  | cons first rest =>
    constructor
    · rintro ⟨-, h⟩
      refine ⟨first, rest, rfl, ?_⟩
      rw [List.headD_cons] at h
      rcases h with h | h
      · exact Or.inl ((hasSubstr_iff _ _).mp h)
      · exact Or.inr ((hasSubstr_iff _ _).mp h)
    · rintro ⟨f2, r2, heq, h⟩
      injection heq with h1 h2
      subst h1
      subst h2
      refine ⟨rfl, ?_⟩
      rw [List.headD_cons]
      rcases h with h | h
      · exact Or.inl ((hasSubstr_iff _ _).mpr h)
      · exact Or.inr ((hasSubstr_iff _ _).mpr h)

/-- Witness for C4 at a concrete input with the iff discharged. -/
theorem C4_meta_case_sensitive_witness :
    isMetaNote metaAt200 = true :=
  (C4_meta_case_sensitive metaAt200).mpr
    ⟨"NeurIPS.cc/2025/Workshop/SEA/-/Meta_Review", [], rfl,
      Or.inl ⟨"NeurIPS.cc/2025/Workshop/SEA/-/".data, [], by decide⟩⟩

/-! ## Claim C3 -/

/-- Head of an ordered insert: the new element lands in front exactly when
the relation puts it before the old head. -/
theorem orderedInsert_head (r : Note → Note → Prop) [DecidableRel r]
    (x : Note) (s : List Note) :
    (List.orderedInsert r x s).head? =
      (match s.head? with
       | none => some x
       | some y => if r x y then some x else some y) := by
  cases s with
  | nil => rfl
  | cons y ys =>
    show (if r x y then x :: y :: ys else y :: List.orderedInsert r x ys).head? = _
    by_cases h : r x y
    · rw [if_pos h]
      simp [h]
    · rw [if_neg h]
      simp [h]

/-- Unfolding equation of firstMaxByCdate on a cons cell. -/
theorem firstMaxByCdate_cons (x : Note) (xs : List Note) :
    firstMaxByCdate (x :: xs) =
      (match firstMaxByCdate xs with
       | none => some x
       | some m => if cdateKey m > cdateKey x then some m else some x) := rfl

/-- The head of the stable descending sort by cdate is the first record
attaining the maximum cdate. -/
theorem insertionSort_head_eq_firstMax : ∀ l : List Note,
    (List.insertionSort (fun a b => cdateKey b ≤ cdateKey a) l).head? =
      firstMaxByCdate l
  | [] => rfl
  | x :: xs => by
    rw [List.insertionSort, orderedInsert_head,
      insertionSort_head_eq_firstMax xs, firstMaxByCdate_cons]
    cases firstMaxByCdate xs with
    | none => rfl
    | some m =>
      show (if cdateKey m ≤ cdateKey x then some x else some m) =
        (if cdateKey m > cdateKey x then some m else some x)
      by_cases h : cdateKey m ≤ cdateKey x
      · rw [if_pos h, if_neg (not_lt.mpr h)]
      · rw [if_neg h, if_pos (lt_of_not_le h)]

/-- C3: get_decision_for_forum extracts the decision text from the meta
decision with the maximum creation timestamp, ties broken by input order,
and returns None when no meta decision exists; concretely, of two meta
decisions created at 100 and 200 the one created at 200 wins, in either
input order, and of two created at 200 the first in input order wins. -/
theorem C3_select_decision :
    (∀ replies : List Note,
      get_decision_for_forum replies =
        (match firstMaxByCdate (replies.filter isMetaNote) with
         | some m => extractDecisionFromContent (m.content.getD [])
         | none => none)) ∧
    (∀ replies : List Note, replies.filter isMetaNote = [] →
      get_decision_for_forum replies = none) ∧
    get_decision_for_forum [metaAt100, metaAt200] = some "Accept (Poster)" ∧
    get_decision_for_forum [metaAt200, metaAt100] = some "Accept (Poster)" ∧
    get_decision_for_forum [metaAt200, metaAt200Tie] = some "Accept (Poster)" ∧
    get_decision_for_forum [metaAt200Tie, metaAt200] = some "Reject (tie loser)" := by
  have key : ∀ replies : List Note,
      get_decision_for_forum replies =
        (match firstMaxByCdate (replies.filter isMetaNote) with
         | some m => extractDecisionFromContent (m.content.getD [])
         | none => none) := by
    intro replies
    show (match (List.insertionSort (fun a b => cdateKey b ≤ cdateKey a)
        (replies.filter isMetaNote)).head? with
      | some meta => extractDecisionFromContent (meta.content.getD [])
      | none => none) = _
    rw [insertionSort_head_eq_firstMax]
  refine ⟨key, ?_, by decide, by decide, by decide, by decide⟩
  intro replies h
  rw [key, h]
  rfl

/-- Witness for C3 at a concrete input with the hypothesis discharged. -/
theorem C3_select_decision_witness :
    get_decision_for_forum [reviewRatingSix] = none :=
  C3_select_decision.2.1 [reviewRatingSix] (by rfl)

/-! ## Claim C5 -/

/-- C5 counterexample: a content dict whose only decision field differs in
case from the candidate key yields no decision in the code, while the
claimed score strategy (case-and-whitespace-insensitive fallback) extracts
it. -/
theorem C5_counterexample :
    extractDecisionFromContent [("Recommendation", .pstr "Accept")] = none ∧
    spec_select_decision_text [("Recommendation", .pstr "Accept")] = some "Accept" := by
  exact ⟨rfl, rfl⟩

/-- The decision key loop stops at the first key present in the content. -/
theorem decisionKeyLoop_eq : ∀ (content : List (String × PyVal)) (keys : List String),
    decisionKeyLoop content keys =
      (match (keys.filterMap (fun k => dictGet content k)).head? with
       | some val =>
         if pyTruthy (unwrapDecisionVal val) then
           some (pyStrip (pyStr (unwrapDecisionVal val)))
         else none
       | none => none)
  | _, [] => rfl
  | content, k :: rest => by
    show (match dictGet content k with
      | some val =>
        let v2 := unwrapDecisionVal val
        if pyTruthy v2 then some (pyStrip (pyStr v2)) else none
      | none => decisionKeyLoop content rest) = _
    rw [List.filterMap_cons]
    cases dictGet content k with
    | some val => rfl
    | none => rw [decisionKeyLoop_eq content rest]

/-- C5 amended: the decision text is extracted by trying the candidate field
names in fixed priority order with exact key match only; the first key
present in the content decides, its value is unwrapped from the value
wrapper (empty-string default), converted to a string, trimmed and
returned, or None when the unwrapped value is falsy; None when no candidate
key is present, and keys after a present key are never consulted. -/
theorem C5_decision_extraction :
    (∀ content : List (String × PyVal),
      extractDecisionFromContent content =
        (match (decisionKeys.filterMap (fun k => dictGet content k)).head? with
         | some val =>
           if pyTruthy (unwrapDecisionVal val) then
             some (pyStrip (pyStr (unwrapDecisionVal val)))
           else none
         | none => none)) ∧
    (∀ content : List (String × PyVal),
      (∀ k, k ∈ decisionKeys → dictGet content k = none) →
      extractDecisionFromContent content = none) ∧
    extractDecisionFromContent [("recommendation", .pstr "  Accept (Oral)  ")] =
      some "Accept (Oral)" ∧
    extractDecisionFromContent [("decision", .pdict [("value", .pstr " Accept ")])] =
      some "Accept" ∧
    extractDecisionFromContent [("recommendation", .pstr "")] = none ∧
    extractDecisionFromContent
      [("recommendation", .pstr ""), ("decision", .pstr "Reject")] = none ∧
    extractDecisionFromContent [("Recommendation", .pstr "Accept")] = none := by
  refine ⟨fun content => decisionKeyLoop_eq content decisionKeys,
    fun content h => ?_, rfl, rfl, rfl, rfl, rfl⟩
  rw [extractDecisionFromContent, decisionKeyLoop_eq]
  have : decisionKeys.filterMap (fun k => dictGet content k) = [] := by
    rw [List.filterMap_eq_nil_iff]
    intro k hk
    rw [h k hk]
  rw [this]
  rfl

/-- Witness for C5 at a concrete input with the hypothesis discharged. -/
theorem C5_decision_extraction_witness :
    extractDecisionFromContent [("rating", .pstr "6")] = none :=
  C5_decision_extraction.2.1 [("rating", .pstr "6")]
    (by intro k hk; fin_cases hk <;> rfl)

/-! ## Claim C1 -/

/-- On an empty accumulator the key loop behaves as the per-review
extraction: it returns the singleton of the first successfully parsed
candidate field, or stays empty. -/
theorem reviewKeyLoop_nil : ∀ (content : List (String × PyVal)) (keys : List String),
    reviewKeyLoop content keys [] =
      (match (keys.filterMap (fun key => (candidatesFor content key).head?.bind
          (fun val => parse_numeric_score (unwrapVal val)))).head? with
       | some q => [q]
       | none => [])
  | _, [] => rfl
  | content, key :: rest => by
    show (let scores2 :=
      (match candidatesFor content key with
       | [] => ([] : List ℚ)
       | val :: _ =>
         match parse_numeric_score (unwrapVal val) with
         | some sc => [] ++ [sc]
         | none => []);
      if scores2.isEmpty then reviewKeyLoop content rest scores2 else scores2) = _
    rw [List.filterMap_cons]
    cases hc : candidatesFor content key with
    | nil =>
      simp only [List.head?_nil, Option.none_bind]
      exact reviewKeyLoop_nil content rest
    | cons val others =>
      simp only [List.head?_cons, Option.some_bind]
      cases hp : parse_numeric_score (unwrapVal val) with
      | some sc => rfl
      | none =>
        simp only [List.isEmpty_nil, if_true]
        exact reviewKeyLoop_nil content rest

/-- The mean of one score is that score. -/
theorem meanQ_singleton (q : ℚ) : meanQ [q] = some q := by
  simp [meanQ]

/-- With an empty accumulator so far, one review contributes exactly its
per-review extracted score. -/
theorem accumulatedScores_singleton (r : Note) :
    accumulatedScores [r] =
      (match extract_score (r.content.getD []) with
       | some q => [q]
       | none => []) := by
  show reviewKeyLoop (r.content.getD []) score_fields [] = _
  rw [reviewKeyLoop_nil]
  rfl

/-- When no review has a parseable score the accumulator stays empty. -/
theorem accumulatedScores_eq_nil : ∀ (reviews : List Note),
    (∀ r ∈ reviews, extract_score (r.content.getD []) = none) →
    accumulatedScores reviews = []
  | [], _ => rfl
  | r :: rs, h => by
    show (r :: rs).foldl
      (fun acc x => reviewKeyLoop (x.content.getD []) score_fields acc) [] = []
    rw [List.foldl_cons]
    have h1 : reviewKeyLoop (r.content.getD []) score_fields [] = [] := by
      rw [reviewKeyLoop_nil]
      have : extract_score (r.content.getD []) = none := h r (List.mem_cons_self r rs)
      rw [extract_score] at this
      rw [this]
    rw [h1]
    exact accumulatedScores_eq_nil rs (fun x hx => h x (List.mem_cons_of_mem r hx))

/-- C1: single reviews are extracted exactly as the spec says, and a review
list with no parseable score averages to None; but on the concrete pair
where the first review carries rating 6 and the second carries only a
recommendation parsing to 2, the code returns 6 while the spec mean of the
per-review scores is 4: once an earlier review has contributed a score,
the later review's candidate fields after "rating" are never consulted. -/
theorem C1_average_score_bug :
    (∀ r : Note, average_review_score [r] = extract_score (r.content.getD [])) ∧
    (∀ reviews : List Note,
      (∀ r ∈ reviews, extract_score (r.content.getD []) = none) →
      average_review_score reviews = none) ∧
    average_review_score [reviewRatingSix, reviewRecTwo] = some 6 ∧
    extract_score (reviewRecTwo.content.getD []) = some 2 ∧
    spec_average_score [reviewRatingSix, reviewRecTwo] = some 4 := by
  refine ⟨fun r => ?_, fun reviews h => ?_, ?_, by decide, ?_⟩
  · rw [average_review_score, accumulatedScores_singleton]
    cases extract_score (r.content.getD []) with
    | some q => exact meanQ_singleton q
    | none => rfl
  · rw [average_review_score, accumulatedScores_eq_nil reviews h]
    rfl
  · have hfold : accumulatedScores [reviewRatingSix, reviewRecTwo] = [(6 : ℚ)] := by
      decide
    rw [average_review_score, hfold]
    exact meanQ_singleton 6
  · have hl : [reviewRatingSix, reviewRecTwo].filterMap
        (fun r => extract_score (r.content.getD [])) = [(6 : ℚ), (2 : ℚ)] := by
      decide
    rw [spec_average_score, hl]
    rw [meanQ]
    norm_num

/-- Witness for C1 at a concrete input with the hypotheses discharged. -/
theorem C1_average_score_bug_witness :
    average_review_score [subNoNumberA] = none :=
  C1_average_score_bug.2.1 [subNoNumberA]
    (by intro r hr; rw [List.mem_singleton] at hr; subst hr; rfl)

/-! ## Claim C7 -/

/-- C7 counterexample: two fetched submission records that both lack a
number map to the fallback identifier -1, so the produced decision rows
repeat an identifier. -/
theorem C7_counterexample :
    ((runAggregation emptyFetch [subNoNumberA, subNoNumberB]).rows.map
      Row.paper_number) = [-1, -1] ∧
    ¬ ((runAggregation emptyFetch [subNoNumberA, subNoNumberB]).rows.map
      Row.paper_number).Nodup := by
  refine ⟨by decide, by decide⟩

/-- C7 amended: the aggregation produces exactly one decision row per
fetched submission record, so when the computed paper identifiers of the
fetched records are pairwise distinct no identifier appears twice among the
rows; the flagged low-score list never repeats an identifier; but fetched
records sharing a computed identifier (for example two records with no
number, both falling back to -1) yield duplicate rows. -/
theorem C7_unique_results :
    (∀ (fetch : String → List Note) (subs : List Note),
      (runAggregation fetch subs).rows.length = subs.length) ∧
    (∀ (fetch : String → List Note) (subs : List Note),
      (subs.map paperNoOf).Nodup →
      ((runAggregation fetch subs).rows.map Row.paper_number).Nodup) ∧
    (∀ (fetch : String → List Note) (subs : List Note),
      (runAggregation fetch subs).flagged.Nodup) := by
  refine ⟨fun fetch subs => ?_, fun fetch subs h => ?_, fun fetch subs => ?_⟩
  · show (List.insertionSort _ (subs.map (aggRow fetch))).length = subs.length
    rw [(List.perm_insertionSort _ _).length_eq, List.length_map]
  · have hperm : List.Perm ((runAggregation fetch subs).rows.map Row.paper_number)
        ((subs.map (aggRow fetch)).map Row.paper_number) :=
      (List.perm_insertionSort _ _).map _
    have heq : (subs.map (aggRow fetch)).map Row.paper_number =
        subs.map paperNoOf := by
      rw [List.map_map]
      rfl
    rw [heq] at hperm
    exact (List.Perm.nodup_iff hperm).mpr h
  · have hperm : List.Perm ((runAggregation fetch subs).flagged)
        (((subs.filter (flaggedLowScore fetch)).map paperNoOf).dedup) :=
      List.perm_insertionSort _ _
    exact (List.Perm.nodup_iff hperm).mpr (List.nodup_dedup _)

/-- Witness for C7 at a concrete input with the hypothesis discharged. -/
theorem C7_unique_results_witness :
    ((runAggregation emptyFetch [subNumberOne, subNoNumberA]).rows.map
      Row.paper_number).Nodup :=
  C7_unique_results.2.1 emptyFetch [subNumberOne, subNoNumberA] (by decide)

/-! ## Claim C10 -/

/-- Membership characterisation of the resolved profile set: either a
member matching the tilde pattern, or the resolution of a non-matching
member. -/
theorem mem_resolve_to_profile_ids
    {lookup : String → Option String} {members : List String} {x : String} :
    x ∈ resolve_to_profile_ids lookup members ↔
      (x ∈ members ∧ tildeMatch x = true) ∨
      ∃ m, m ∈ members ∧ tildeMatch m = false ∧ lookup m = some x := by
  unfold resolve_to_profile_ids
  rw [Finset.mem_union, List.mem_toFinset, List.mem_toFinset, List.mem_filter,
    List.mem_filterMap]
  constructor
  · rintro (h | ⟨m, hm, hl⟩)
    · exact Or.inl h
    · rw [List.mem_filter, Bool.not_eq_true', decide_eq_false_iff_not,
        List.mem_toFinset, List.mem_filter] at hm
      obtain ⟨hmem, hnot⟩ := hm
      refine Or.inr ⟨m, hmem, ?_, hl⟩
      rcases Bool.eq_false_or_eq_true (tildeMatch m) with hf | ht
      · exact absurd ⟨hmem, hf⟩ hnot
      · exact ht
  · rintro (h | ⟨m, hmem, hfalse, hl⟩)
    · exact Or.inl h
    · refine Or.inr ⟨m, ?_, hl⟩
      rw [List.mem_filter, Bool.not_eq_true', decide_eq_false_iff_not,
        List.mem_toFinset, List.mem_filter]
      exact ⟨hmem, fun hc => by rw [hfalse] at hc; exact Bool.false_ne_true hc.2⟩

/-- C10: the resolved set is the union of the tilde-matching members with
the resolutions of the non-matching members; it depends only on the set of
input members, not their order or multiplicity; and the concrete example
set resolves as the spec says, in either input order. -/
theorem C10_resolve_to_profile_ids :
    (∀ (lookup : String → Option String) (members : List String),
      resolve_to_profile_ids lookup members =
        (members.filter (fun m => tildeMatch m)).toFinset ∪
        ((members.filter (fun m => !(tildeMatch m))).filterMap lookup).toFinset) ∧
    (∀ (lookup : String → Option String) (ms1 ms2 : List String),
      ms1.toFinset = ms2.toFinset →
      resolve_to_profile_ids lookup ms1 = resolve_to_profile_ids lookup ms2) ∧
    resolve_to_profile_ids exampleLookup ["~Jane_Doe1", "jane@example.com"] =
      {"~Jane_Doe1", "~Jane_Doe2"} ∧
    resolve_to_profile_ids exampleLookup ["jane@example.com", "~Jane_Doe1"] =
      {"~Jane_Doe1", "~Jane_Doe2"} ∧
    resolve_to_profile_ids exampleLookup
      ["~Jane_Doe1", "jane@example.com", "~Jane_Doe1"] =
      {"~Jane_Doe1", "~Jane_Doe2"} := by
  refine ⟨fun lookup members => ?_, fun lookup ms1 ms2 h => ?_, by decide, by decide,
    by decide⟩
  · ext x
    rw [mem_resolve_to_profile_ids, Finset.mem_union, List.mem_toFinset,
      List.mem_toFinset, List.mem_filter, List.mem_filterMap]
    constructor
    · rintro (h | ⟨m, hmem, hfalse, hl⟩)
      · exact Or.inl h
      · exact Or.inr ⟨m, List.mem_filter.mpr
          ⟨hmem, by rw [hfalse]; rfl⟩, hl⟩
    · rintro (h | ⟨m, hm, hl⟩)
      · exact Or.inl h
      · rw [List.mem_filter, Bool.not_eq_true'] at hm
        exact Or.inr ⟨m, hm.1, hm.2, hl⟩
  · ext x
    rw [mem_resolve_to_profile_ids, mem_resolve_to_profile_ids]
    have hm : ∀ y : String, y ∈ ms1 ↔ y ∈ ms2 := by
      intro y
      rw [← List.mem_toFinset, h, List.mem_toFinset]
    constructor
    · rintro (⟨h1, h2⟩ | ⟨m, h1, h2, h3⟩)
      · exact Or.inl ⟨(hm x).mp h1, h2⟩
      · exact Or.inr ⟨m, (hm m).mp h1, h2, h3⟩
    · rintro (⟨h1, h2⟩ | ⟨m, h1, h2, h3⟩)
      · exact Or.inl ⟨(hm x).mpr h1, h2⟩
      · exact Or.inr ⟨m, (hm m).mpr h1, h2, h3⟩

/-- Witness for C10 at a concrete input with the hypothesis discharged. -/
theorem C10_resolve_to_profile_ids_witness :
    resolve_to_profile_ids exampleLookup ["~Jane_Doe1", "jane@example.com"] =
      resolve_to_profile_ids exampleLookup ["jane@example.com", "~Jane_Doe1"] :=
  C10_resolve_to_profile_ids.2.1 exampleLookup
    ["~Jane_Doe1", "jane@example.com"] ["jane@example.com", "~Jane_Doe1"]
    (by decide)
